import Mathlib

/-!
Verification of the voting-tutorial repository core: the contract/script
template engine (`src/util/voting.tsx`), the client orchestration flows
(`Client.deployContract` / `Client.deployScript` and the React handlers in
`src/App.tsx`), the error surfacing helper `catchAndAlert`, and the network
status monitor.  The template engine and orchestrator are embedded shallowly:
template functions become Lean functions on `String`, the remote node is an
explicit record of call results, and each workflow is a function that also
returns the ordered trace of remote calls it performed.
-/

set_option maxRecDepth 100000

namespace VotingTutorial

/-! ### Counting occurrences of a pattern inside a character list -/

/-- Number of positions of `s` at which the pattern `pat` occurs
(as a contiguous substring). -/
def countOccs (pat : List Char) : List Char → Nat
  | [] => 0
  | c :: s => (if pat.isPrefixOf (c :: s) then 1 else 0) + countOccs pat s

/-- `countOccs` lifted to `String`. -/
def countOccsS (pat s : String) : Nat := countOccs pat.data s.data

theorem countOccs_nil (pat : List Char) : countOccs pat [] = 0 := rfl

theorem countOccs_cons (pat : List Char) (c : Char) (s : List Char) :
    countOccs pat (c :: s) = (if pat.isPrefixOf (c :: s) then 1 else 0) + countOccs pat s := rfl

theorem isPrefixOf_iff (l m : List Char) : l.isPrefixOf m = true ↔ l <+: m := by
  exact List.isPrefixOf_iff_prefix

theorem prefix_of_append_sep (sep : Char) (v : List Char) :
    ∀ (u pat : List Char), sep ∉ pat → pat <+: u ++ sep :: v → pat <+: u := by
  intro u
  induction u with
  | nil =>
    intro pat hsep h
    cases pat with
    | nil => exact ⟨[], rfl⟩
    | cons p pr =>
      rcases h with ⟨t, ht⟩
      rw [List.nil_append, List.cons_append] at ht
      injection ht with h1 h2
      subst h1
      exact absurd (List.mem_cons_self p pr) hsep
  | cons a u2 ih =>
    intro pat hsep h
    cases pat with
    | nil => exact ⟨a :: u2, rfl⟩
    | cons p pr =>
      rcases h with ⟨t, ht⟩
      rw [List.cons_append, List.cons_append] at ht
      injection ht with h1 h2
      subst h1
      have hsep2 : sep ∉ pr := fun hm => hsep (List.mem_cons_of_mem _ hm)
      have hpr : pr <+: u2 := ih pr hsep2 ⟨t, h2⟩
      rcases hpr with ⟨t2, ht2⟩
      exact ⟨t2, by rw [List.cons_append, ht2]⟩

theorem prefix_append_right (pat u w : List Char) (h : pat <+: u) : pat <+: u ++ w := by
  rcases h with ⟨t, ht⟩
  exact ⟨t ++ w, by rw [← List.append_assoc, ht]⟩

theorem isPrefixOf_append_sep (pat u v : List Char) (sep : Char) (hsep : sep ∉ pat) :
    pat.isPrefixOf (u ++ sep :: v) = pat.isPrefixOf u := by
  by_cases h : pat <+: u
  · rw [(isPrefixOf_iff pat u).mpr h,
      (isPrefixOf_iff pat (u ++ sep :: v)).mpr (prefix_append_right pat u (sep :: v) h)]
  · have h2 : ¬ pat <+: u ++ sep :: v := fun hc => h (prefix_of_append_sep sep v u pat hsep hc)
    have e1 : pat.isPrefixOf u = false := by
      cases hp : pat.isPrefixOf u
      · rfl
      · exact absurd ((isPrefixOf_iff pat u).mp hp) h
    have e2 : pat.isPrefixOf (u ++ sep :: v) = false := by
      cases hp : pat.isPrefixOf (u ++ sep :: v)
      · rfl
      · exact absurd ((isPrefixOf_iff pat (u ++ sep :: v)).mp hp) h2
    rw [e1, e2]

/-- Key splitting law: occurrences distribute over a separator character
that does not occur in the pattern. -/
theorem countOccs_split (pat : List Char) (sep : Char) (hne : pat ≠ []) (hsep : sep ∉ pat) :
    ∀ (x y : List Char), countOccs pat (x ++ sep :: y) = countOccs pat x + countOccs pat y := by
  intro x
  induction x with
  | nil =>
    intro y
    rw [List.nil_append, countOccs_cons, countOccs_nil]
    have hfalse : pat.isPrefixOf (sep :: y) = false := by
      have h := isPrefixOf_append_sep pat [] y sep hsep
      rw [List.nil_append] at h
      rw [h]
      cases pat with
      | nil => exact absurd rfl hne
      | cons p pr => rfl
    rw [hfalse]
    simp
  | cons a x2 ih =>
    intro y
    rw [List.cons_append, countOccs_cons, countOccs_cons, ih y]
    have hind : pat.isPrefixOf (a :: (x2 ++ sep :: y)) = pat.isPrefixOf (a :: x2) := by
      have h := isPrefixOf_append_sep pat (a :: x2) y sep hsep
      rw [List.cons_append] at h
      exact h
    rw [hind]
    exact (Nat.add_assoc _ _ _).symm

/-- A pattern containing a character absent from `s` never occurs in `s`. -/
theorem countOccs_eq_zero (pat : List Char) (c : Char) (hc : c ∈ pat) :
    ∀ s : List Char, c ∉ s → countOccs pat s = 0 := by
  intro s
  induction s with
  | nil => intro _; rfl
  | cons a s2 ih =>
    intro hs
    rw [countOccs_cons]
    have h1 : pat.isPrefixOf (a :: s2) = false := by
      cases hp : pat.isPrefixOf (a :: s2)
      · rfl
      · exact absurd (((isPrefixOf_iff pat (a :: s2)).mp hp).subset hc) hs
    have h2 : c ∉ s2 := fun hm => hs (List.mem_cons_of_mem _ hm)
    rw [h1, ih h2]
    simp

/-! ### Template engine: `src/util/voting.tsx` (code shown in the README)

`createContract` renders the Fi-Lang contract for `nVoters` voters.  The
TypeScript builds a list `votersTransfers` of two transfer statements per
voter and splices `votersTransfers.join('\n')` into a template literal.
The template literal pieces between the interpolation holes are kept
byte-for-byte (braces written with escapes). -/

/-- Interface `ContractRef` from `src/util/client.tsx`. -/
structure ContractRef where
  contractAddress : String
  tokenId : String

/-- `const utxoFee = '50000000000000'` -/
def utxoFee : String := "50000000000000"

/-- First statement pushed per voter `i`:
`transferAlph!(admin, voters[${i}], ${utxoFee})`. -/
def allocLine (i : Nat) : String :=
  "transferAlph!(admin, voters[" ++ Nat.repr i ++ "], " ++ utxoFee ++ ")"

/-- Second statement pushed per voter `i`:
`transferTokenFromSelf!(voters[${i}], selfTokenId!(), 1)`. -/
def tokenLine (i : Nat) : String :=
  "transferTokenFromSelf!(voters[" ++ Nat.repr i ++ "], selfTokenId!(), 1)"

/-- The loop `for (let i = 0; i < nVoters; i++)` pushing the two transfer
statements per voter, in order. -/
def votersTransfers (nVoters : Nat) : List String :=
  (List.range nVoters).flatMap (fun i => [allocLine i, tokenLine i])

/-- JavaScript `Array.prototype.join(sep)`. -/
def joinSep (sep : String) : List String → String
  | [] => ""
  | [x] => x
  | x :: xs => x ++ sep ++ joinSep sep xs

/-- Template text before the `${nVoters}` hole. -/
def contractHead : String :=
  "\n   TxContract Voting(\n     title: ByteVec,\n     mut yes: U256,\n     mut no: U256,\n     mut isClosed: Bool,\n     mut initialized: Bool,\n     admin: Address,\n     voters: [Address; "

/-- Template text between the `${nVoters}` hole and the
`${votersTransfers.join('\n')}` hole. -/
def contractMid : String :=
  "]\n   ) \x7b\n     pub payable fn allocateTokens() -> () \x7b\n        assert!(initialized == false)\n        assert!(txCaller!(txCallerSize!() - 1) == admin)\n        "

/-- Template text after the transfers hole: the rest of `allocateTokens`
and the fixed `vote` and `close` routines (with the `${utxoFee}` hole). -/
def contractTail : String :=
  "\n        yes = 0\n        no = 0\n        initialized = true\n     \x7d\n\n     pub payable fn vote(choice: Bool, voter: Address) -> () \x7b\n       assert!(initialized == true && isClosed == false)\n       transferAlph!(voter, admin, "
    ++ utxoFee ++
  ")\n       transferTokenToSelf!(voter, selfTokenId!(), 1)\n       if (choice == true) \x7b\n          yes = yes + 1\n       \x7d else \x7b\n          no = no + 1\n       \x7d\n     \x7d\n\n      pub fn close() -> () \x7b\n        assert!(initialized == true && isClosed == false)\n        assert!(txCaller!(txCallerSize!() - 1) == admin)\n        isClosed = true\n      \x7d\n    \x7d"

/-- `createContract(nVoters)` from `src/util/voting.tsx`. -/
def createContract (nVoters : Nat) : String :=
  contractHead ++ Nat.repr nVoters ++ contractMid
    ++ joinSep "\n" (votersTransfers nVoters) ++ contractTail

/-- `allocateTokenScript(contractRef, nVoters)`. -/
def allocateTokenScript (contractRef : ContractRef) (nVoters : Nat) : String :=
  "TxScript TokenAllocation \x7b\n    pub payable fn main() -> () \x7b\n      let voting = Voting(#"
    ++ contractRef.tokenId ++
  ")\n      let caller = txCaller!(0)\n      approveAlph!(caller, "
    ++ utxoFee ++ " * " ++ Nat.repr nVoters ++
  ")\n      voting.allocateTokens()\n    \x7d\n  \x7d\n  "
    ++ createContract nVoters ++ "\n  "

/-- `createVotingScript(choice, contractRef, nVoters)`. -/
def createVotingScript (choice : Bool) (contractRef : ContractRef) (nVoters : Nat) : String :=
  "TxScript VotingScript \x7b\n      pub payable fn main() -> () \x7b\n        let caller = txCaller!(0)\n        let voting = Voting(#"
    ++ contractRef.tokenId ++
  ")\n        approveToken!(caller, #"
    ++ contractRef.tokenId ++
  ", 1)\n        approveAlph!(caller, "
    ++ utxoFee ++
  ")\n        voting.vote("
    ++ toString choice ++
  ", caller)\n      \x7d\n    \x7d\n    "
    ++ createContract nVoters ++ "\n    "

/-- `closeVotingScript(contractRef, nVoters)`. -/
def closeVotingScript (contractRef : ContractRef) (nVoters : Nat) : String :=
  "TxScript ClosingScript \x7b\n    pub payable fn main() -> () \x7b\n      let voting = Voting(#"
    ++ contractRef.tokenId ++
  ")\n      voting.close()\n    \x7d\n  \x7d\n  "
    ++ createContract nVoters ++ "\n  "

/-! ### Basic laws of the helpers -/

theorem joinSep_nil (sep : String) : joinSep sep [] = "" := rfl

theorem joinSep_single (sep x : String) : joinSep sep [x] = x := rfl

theorem joinSep_cons2 (sep x y : String) (ys : List String) :
    joinSep sep (x :: y :: ys) = x ++ sep ++ joinSep sep (y :: ys) := rfl

theorem joinSep_snoc (sep a : String) :
    ∀ xs : List String, xs ≠ [] → joinSep sep (xs ++ [a]) = joinSep sep xs ++ sep ++ a := by
  intro xs
  induction xs with
  | nil => intro h; exact absurd rfl h
  | cons x xs2 ih =>
    intro _
    cases xs2 with
    | nil => rfl
    | cons y ys =>
      have e1 : (x :: y :: ys) ++ [a] = x :: (y :: (ys ++ [a])) := by simp
      rw [e1, joinSep_cons2]
      have e2 : y :: (ys ++ [a]) = (y :: ys) ++ [a] := by simp
      rw [e2, ih (by simp), joinSep_cons2]
      simp [String.append_assoc]

theorem votersTransfers_zero : votersTransfers 0 = [] := rfl

theorem votersTransfers_succ (n : Nat) :
    votersTransfers (n + 1) = votersTransfers n ++ [allocLine n, tokenLine n] := by
  unfold votersTransfers
  rw [List.range_succ, List.flatMap_append]
  simp

theorem votersTransfers_ne_nil (n : Nat) (h : n ≠ 0) : votersTransfers n ≠ [] := by
  cases n with
  | zero => exact absurd rfl h
  | succ m =>
    rw [votersTransfers_succ]
    simp

/-! ### Decimal renderings contain only digit characters -/

def digitChars : List Char := ['0', '1', '2', '3', '4', '5', '6', '7', '8', '9']

theorem digitChar_mem (m : Nat) (h : m < 10) : Nat.digitChar m ∈ digitChars := by
  interval_cases m <;> decide

theorem toDigitsCore_digits :
    ∀ (fuel n : Nat) (ds : List Char), (∀ c ∈ ds, c ∈ digitChars) →
      ∀ c ∈ Nat.toDigitsCore 10 fuel n ds, c ∈ digitChars := by
  intro fuel
  induction fuel with
  | zero =>
    intro n ds h c hc
    exact h c hc
  | succ f ih =>
    intro n ds h c hc
    rw [show Nat.toDigitsCore 10 (f + 1) n ds
        = if n / 10 = 0 then Nat.digitChar (n % 10) :: ds
          else Nat.toDigitsCore 10 f (n / 10) (Nat.digitChar (n % 10) :: ds) from rfl] at hc
    have hcons : ∀ c2 ∈ Nat.digitChar (n % 10) :: ds, c2 ∈ digitChars := by
      intro c2 hc2
      rcases List.mem_cons.mp hc2 with h1 | h2
      · subst h1
        exact digitChar_mem (n % 10) (Nat.mod_lt n (by decide))
      · exact h c2 h2
    by_cases h10 : n / 10 = 0
    · rw [if_pos h10] at hc
      exact hcons c hc
    · rw [if_neg h10] at hc
      exact ih (n / 10) (Nat.digitChar (n % 10) :: ds) hcons c hc

theorem repr_mem_digitChars (n : Nat) : ∀ c ∈ (Nat.repr n).data, c ∈ digitChars := by
  intro c hc
  have h : (Nat.repr n).data = Nat.toDigitsCore 10 (n + 1) n [] := rfl
  rw [h] at hc
  exact toDigitsCore_digits (n + 1) n [] (by intro c2 hc2; cases hc2) c hc

theorem repr_not_mem (n : Nat) (c : Char) (hc : c ∉ digitChars) : c ∉ (Nat.repr n).data :=
  fun h => hc (repr_mem_digitChars n c h)

/-! ### Occurrence counts of the transfer and approval statements -/

/-- Marker for an allocation ALPH transfer to a voter. -/
def allocPat : String := "transferAlph!(admin,"

/-- Marker for an allocation token transfer to a voter. -/
def tokPat : String := "transferTokenFromSelf!"

/-- Marker for an ALPH spending approval inside a script. -/
def appPat : String := "approveAlph!"

theorem allocLine_data (i : Nat) :
    (allocLine i).data = allocPat.data ++ ' ' :: (("voters" : String).data
        ++ '[' :: ((Nat.repr i).data ++ ']' :: (", 50000000000000)" : String).data)) := by
  simp [allocLine, utxoFee, allocPat, String.data_append]

theorem tokenLine_data (i : Nat) :
    (tokenLine i).data = ("transferTokenFromSelf!(voters" : String).data
        ++ '[' :: ((Nat.repr i).data ++ ']' :: (", selfTokenId!(), 1)" : String).data) := by
  simp [tokenLine, String.data_append]

/-- Generic occurrence count over one allocation ALPH-transfer line. -/
theorem countOccs_allocLine (pat : List Char) (hne : pat ≠ [])
    (h1 : ' ' ∉ pat) (h2 : '[' ∉ pat) (h3 : ']' ∉ pat)
    (c : Char) (hc : c ∈ pat) (hcd : c ∉ digitChars) (i : Nat) :
    countOccs pat (allocLine i).data
      = countOccs pat allocPat.data + countOccs pat ("voters" : String).data
        + countOccs pat (", 50000000000000)" : String).data := by
  rw [allocLine_data i, countOccs_split pat ' ' hne h1, countOccs_split pat '[' hne h2,
    countOccs_split pat ']' hne h3,
    countOccs_eq_zero pat c hc _ (repr_not_mem i c hcd)]
  omega

/-- Generic occurrence count over one allocation token-transfer line. -/
theorem countOccs_tokenLine (pat : List Char) (hne : pat ≠ [])
    (h2 : '[' ∉ pat) (h3 : ']' ∉ pat)
    (c : Char) (hc : c ∈ pat) (hcd : c ∉ digitChars) (i : Nat) :
    countOccs pat (tokenLine i).data
      = countOccs pat ("transferTokenFromSelf!(voters" : String).data
        + countOccs pat (", selfTokenId!(), 1)" : String).data := by
  rw [tokenLine_data i, countOccs_split pat '[' hne h2, countOccs_split pat ']' hne h3,
    countOccs_eq_zero pat c hc _ (repr_not_mem i c hcd)]
  omega

theorem count_allocPat_allocLine (i : Nat) : countOccs allocPat.data (allocLine i).data = 1 := by
  rw [countOccs_allocLine allocPat.data (by decide) (by decide) (by decide) (by decide)
    't' (by decide) (by decide) i]
  decide

theorem count_allocPat_tokenLine (i : Nat) : countOccs allocPat.data (tokenLine i).data = 0 := by
  rw [countOccs_tokenLine allocPat.data (by decide) (by decide) (by decide)
    't' (by decide) (by decide) i]
  decide

theorem count_tokPat_allocLine (i : Nat) : countOccs tokPat.data (allocLine i).data = 0 := by
  rw [countOccs_allocLine tokPat.data (by decide) (by decide) (by decide) (by decide)
    't' (by decide) (by decide) i]
  decide

theorem count_tokPat_tokenLine (i : Nat) : countOccs tokPat.data (tokenLine i).data = 1 := by
  rw [countOccs_tokenLine tokPat.data (by decide) (by decide) (by decide)
    't' (by decide) (by decide) i]
  decide

theorem count_appPat_allocLine (i : Nat) : countOccs appPat.data (allocLine i).data = 0 := by
  rw [countOccs_allocLine appPat.data (by decide) (by decide) (by decide) (by decide)
    'p' (by decide) (by decide) i]
  decide

theorem count_appPat_tokenLine (i : Nat) : countOccs appPat.data (tokenLine i).data = 0 := by
  rw [countOccs_tokenLine appPat.data (by decide) (by decide) (by decide)
    'p' (by decide) (by decide) i]
  decide

/-- Occurrence count over the joined transfer block: each voter contributes
`ca + ct` occurrences. -/
theorem countOccs_join_transfers (pat : List Char) (hne : pat ≠ []) (hnl : '\n' ∉ pat)
    (ca ct : Nat) (ha : ∀ i, countOccs pat (allocLine i).data = ca)
    (ht : ∀ i, countOccs pat (tokenLine i).data = ct) :
    ∀ n, countOccs pat (joinSep "\n" (votersTransfers n)).data = n * (ca + ct) := by
  intro n
  induction n with
  | zero =>
    rw [votersTransfers_zero, joinSep_nil]
    simp [countOccs_nil]
  | succ m ih =>
    rw [votersTransfers_succ]
    by_cases hm : m = 0
    · subst hm
      rw [votersTransfers_zero, List.nil_append, joinSep_cons2, joinSep_single]
      have hd : ((allocLine 0 ++ "\n" ++ tokenLine 0) : String).data
          = (allocLine 0).data ++ '\n' :: (tokenLine 0).data := by
        simp [String.data_append]
      rw [hd, countOccs_split pat '\n' hne hnl, ha 0, ht 0]
      simp
    · have h1 : votersTransfers m ≠ [] := votersTransfers_ne_nil m hm
      have e : votersTransfers m ++ [allocLine m, tokenLine m]
          = (votersTransfers m ++ [allocLine m]) ++ [tokenLine m] := by simp
      rw [e, joinSep_snoc "\n" (tokenLine m) (votersTransfers m ++ [allocLine m]) (by simp),
        joinSep_snoc "\n" (allocLine m) (votersTransfers m) h1]
      have hd : ((joinSep "\n" (votersTransfers m) ++ "\n" ++ allocLine m ++ "\n" ++ tokenLine m) : String).data
          = (joinSep "\n" (votersTransfers m)).data
              ++ '\n' :: ((allocLine m).data ++ '\n' :: (tokenLine m).data) := by
        simp [String.data_append]
      rw [hd, countOccs_split pat '\n' hne hnl, countOccs_split pat '\n' hne hnl, ih, ha m, ht m]
      ring

/-! ### Occurrence counts over the whole rendered contract -/

/-- `contractHead` without its final space (proof-side segmentation). -/
def contractHeadA : String :=
  "\n   TxContract Voting(\n     title: ByteVec,\n     mut yes: U256,\n     mut no: U256,\n     mut isClosed: Bool,\n     mut initialized: Bool,\n     admin: Address,\n     voters: [Address;"

/-- `contractMid` without its leading bracket and final space. -/
def contractMidA : String :=
  "\n   ) \x7b\n     pub payable fn allocateTokens() -> () \x7b\n        assert!(initialized == false)\n        assert!(txCaller!(txCallerSize!() - 1) == admin)\n       "

/-- `contractTail` without its leading newline, fee constant inlined. -/
def contractTailA : String :=
  "        yes = 0\n        no = 0\n        initialized = true\n     \x7d\n\n     pub payable fn vote(choice: Bool, voter: Address) -> () \x7b\n       assert!(initialized == true && isClosed == false)\n       transferAlph!(voter, admin, 50000000000000)\n       transferTokenToSelf!(voter, selfTokenId!(), 1)\n       if (choice == true) \x7b\n          yes = yes + 1\n       \x7d else \x7b\n          no = no + 1\n       \x7d\n     \x7d\n\n      pub fn close() -> () \x7b\n        assert!(initialized == true && isClosed == false)\n        assert!(txCaller!(txCallerSize!() - 1) == admin)\n        isClosed = true\n      \x7d\n    \x7d"

theorem createContract_data (n : Nat) :
    (createContract n).data
      = contractHeadA.data ++ ' ' :: ((Nat.repr n).data ++ ']' :: (contractMidA.data
          ++ ' ' :: ((joinSep "\n" (votersTransfers n)).data ++ '\n' :: contractTailA.data))) := by
  simp [createContract, contractHead, contractMid, contractTail, utxoFee,
    contractHeadA, contractMidA, contractTailA, String.data_append]

/-- Generic occurrence count over the whole rendered contract. -/
theorem countOccs_createContract (pat : List Char) (hne : pat ≠ [])
    (hsp : ' ' ∉ pat) (hrb : ']' ∉ pat) (hnl : '\n' ∉ pat)
    (c : Char) (hc : c ∈ pat) (hcd : c ∉ digitChars)
    (ca ct : Nat) (ha : ∀ i, countOccs pat (allocLine i).data = ca)
    (ht : ∀ i, countOccs pat (tokenLine i).data = ct) (n : Nat) :
    countOccs pat (createContract n).data
      = countOccs pat contractHeadA.data + countOccs pat contractMidA.data
        + n * (ca + ct) + countOccs pat contractTailA.data := by
  rw [createContract_data n, countOccs_split pat ' ' hne hsp,
    countOccs_split pat ']' hne hrb, countOccs_split pat ' ' hne hsp,
    countOccs_split pat '\n' hne hnl,
    countOccs_eq_zero pat c hc _ (repr_not_mem n c hcd),
    countOccs_join_transfers pat hne hnl ca ct ha ht n]
  omega

/-- The rendered contract has exactly one admin-to-voter ALPH transfer per voter. -/
theorem count_allocPat_contract (n : Nat) : countOccsS allocPat (createContract n) = n := by
  have h := countOccs_createContract allocPat.data (by decide) (by decide) (by decide)
    (by decide) 't' (by decide) (by decide) 1 0 count_allocPat_allocLine count_allocPat_tokenLine n
  have hH : countOccs allocPat.data contractHeadA.data = 0 := by decide
  have hM : countOccs allocPat.data contractMidA.data = 0 := by decide
  have hT : countOccs allocPat.data contractTailA.data = 0 := by decide
  rw [countOccsS, h, hH, hM, hT]
  omega

/-- The rendered contract has exactly one token transfer per voter. -/
theorem count_tokPat_contract (n : Nat) : countOccsS tokPat (createContract n) = n := by
  have h := countOccs_createContract tokPat.data (by decide) (by decide) (by decide)
    (by decide) 't' (by decide) (by decide) 0 1 count_tokPat_allocLine count_tokPat_tokenLine n
  have hH : countOccs tokPat.data contractHeadA.data = 0 := by decide
  have hM : countOccs tokPat.data contractMidA.data = 0 := by decide
  have hT : countOccs tokPat.data contractTailA.data = 0 := by decide
  rw [countOccsS, h, hH, hM, hT]
  omega

/-- The rendered contract never approves ALPH spending. -/
theorem count_appPat_contract (n : Nat) : countOccsS appPat (createContract n) = 0 := by
  have h := countOccs_createContract appPat.data (by decide) (by decide) (by decide)
    (by decide) 'p' (by decide) (by decide) 0 0 count_appPat_allocLine count_appPat_tokenLine n
  have hH : countOccs appPat.data contractHeadA.data = 0 := by decide
  have hM : countOccs appPat.data contractMidA.data = 0 := by decide
  have hT : countOccs appPat.data contractTailA.data = 0 := by decide
  rw [countOccsS, h, hH, hM, hT]
  omega

/-! ### Node `Buffer` model: UTF-8 and hex codec

`strToHexString` and `hexStringToStr` in `src/util/voting.tsx` delegate to
Node `Buffer`, a library external to the repository.  `Buffer.from(str)`
yields the UTF-8 bytes of the string; `.toString('hex')` renders them as
lowercase hex; `Buffer.from(str, 'hex')` decodes hex pairs (stopping at the
first invalid pair); `.toString()` decodes UTF-8.  The codecs below model
that behaviour (faithfully on all valid inputs). -/

theorem char_toNat_lt (c : Char) : c.toNat < 1114112 := by
  rcases c.valid with h | ⟨h1, h2⟩
  · exact Nat.lt_trans h (by decide)
  · exact h2

/-- UTF-8 encoding of one code point. -/
def utf8EncodeChar (c : Char) : List Nat :=
  let n := c.toNat
  if n < 128 then [n]
  else if n < 2048 then [192 + n / 64, 128 + n % 64]
  else if n < 65536 then [224 + n / 4096, 128 + n / 64 % 64, 128 + n % 64]
  else [240 + n / 262144, 128 + n / 4096 % 64, 128 + n / 64 % 64, 128 + n % 64]

/-- Lowercase hex digit for a value below 16. -/
def hexDigit (n : Nat) : Char :=
  if n < 10 then Char.ofNat (48 + n) else Char.ofNat (87 + n)

def byteToHexChars (b : Nat) : List Char := [hexDigit (b / 16), hexDigit (b % 16)]

/-- `strToHexString(str)` from `src/util/voting.tsx`:
`Buffer.from(str).toString('hex')`. -/
def strToHexString (str : String) : String :=
  ⟨(str.data.flatMap utf8EncodeChar).flatMap byteToHexChars⟩

/-- Value of a hex digit character (upper or lower case), if any. -/
def hexDigitVal (c : Char) : Option Nat :=
  if 48 ≤ c.toNat ∧ c.toNat ≤ 57 then some (c.toNat - 48)
  else if 97 ≤ c.toNat ∧ c.toNat ≤ 102 then some (c.toNat - 87)
  else if 65 ≤ c.toNat ∧ c.toNat ≤ 70 then some (c.toNat - 55)
  else none

/-- Hex decoding of char pairs, stopping at the first invalid pair. -/
def hexToBytes : List Char → List Nat
  | c1 :: c2 :: rest =>
    match hexDigitVal c1, hexDigitVal c2 with
    | some h, some l => (h * 16 + l) :: hexToBytes rest
    | _, _ => []
  | _ => []

/-- Value and remainder of one UTF-8 continuation byte, if valid. -/
def cont (bs : List Nat) : Option (Nat × List Nat) :=
  match bs with
  | b :: r => if 128 ≤ b ∧ b < 192 then some (b - 128, r) else none
  | [] => none

/-- UTF-8 decoding with explicit fuel; `none` on a malformed byte sequence. -/
def utf8DecodeAux : Nat → List Nat → Option (List Char)
  | _, [] => some []
  | 0, _ :: _ => none
  | fuel + 1, b :: bs =>
    if b < 128 then
      (utf8DecodeAux fuel bs).map (fun cs => Char.ofNat b :: cs)
    else if 192 ≤ b ∧ b < 224 then
      (cont bs).bind (fun p1 =>
        (utf8DecodeAux fuel p1.2).map (fun cs => Char.ofNat ((b - 192) * 64 + p1.1) :: cs))
    else if 224 ≤ b ∧ b < 240 then
      (cont bs).bind (fun p1 => (cont p1.2).bind (fun p2 =>
        (utf8DecodeAux fuel p2.2).map
          (fun cs => Char.ofNat ((b - 224) * 4096 + p1.1 * 64 + p2.1) :: cs)))
    else if 240 ≤ b ∧ b < 248 then
      (cont bs).bind (fun p1 => (cont p1.2).bind (fun p2 => (cont p2.2).bind (fun p3 =>
        (utf8DecodeAux fuel p3.2).map
          (fun cs => Char.ofNat
            ((b - 240) * 262144 + p1.1 * 4096 + p2.1 * 64 + p3.1) :: cs))))
    else none

/-- UTF-8 decoding; `none` on a malformed byte sequence. -/
def utf8Decode (l : List Nat) : Option (List Char) := utf8DecodeAux l.length l

/-- `hexStringToStr(str)` from `src/util/voting.tsx`:
`Buffer.from(str, 'hex').toString()`. -/
def hexStringToStr (str : String) : String :=
  match utf8Decode (hexToBytes str.data) with
  | some cs => ⟨cs⟩
  | none => ""

theorem utf8EncodeChar_lt (c : Char) : ∀ b ∈ utf8EncodeChar c, b < 256 := by
  intro b hb
  have hv : c.toNat < 1114112 := char_toNat_lt c
  rw [utf8EncodeChar] at hb
  by_cases h1 : c.toNat < 128
  · rw [if_pos h1] at hb
    simp at hb
    omega
  · rw [if_neg h1] at hb
    by_cases h2 : c.toNat < 2048
    · rw [if_pos h2] at hb
      simp at hb
      rcases hb with hb | hb <;> omega
    · rw [if_neg h2] at hb
      by_cases h3 : c.toNat < 65536
      · rw [if_pos h3] at hb
        simp at hb
        rcases hb with hb | hb | hb <;> omega
      · rw [if_neg h3] at hb
        simp at hb
        rcases hb with hb | hb | hb | hb <;> omega

theorem hexDigitVal_hexDigit (n : Nat) (h : n < 16) : hexDigitVal (hexDigit n) = some n := by
  interval_cases n <;> decide

theorem hexToBytes_encode : ∀ bs : List Nat, (∀ b ∈ bs, b < 256) →
    hexToBytes (bs.flatMap byteToHexChars) = bs := by
  intro bs
  induction bs with
  | nil => intro _; rfl
  | cons b rest ih =>
    intro h
    have hb : b < 256 := h b (List.mem_cons_self b rest)
    have h1 : b / 16 < 16 := by omega
    have h2 : b % 16 < 16 := by omega
    rw [List.flatMap_cons, byteToHexChars, List.cons_append, List.cons_append, List.nil_append]
    rw [hexToBytes, hexDigitVal_hexDigit _ h1, hexDigitVal_hexDigit _ h2]
    show (b / 16 * 16 + b % 16) :: hexToBytes (rest.flatMap byteToHexChars) = b :: rest
    have hv : b / 16 * 16 + b % 16 = b := by omega
    rw [hv, ih (fun x hx => h x (List.mem_cons_of_mem b hx))]

theorem optBind_some {A B : Type} (a : A) (f : A → Option B) : (some a).bind f = f a := rfl

theorem utf8DecodeAux_one (f b0 : Nat) (bs : List Nat) (h : b0 < 128) :
    utf8DecodeAux (f + 1) (b0 :: bs)
      = (utf8DecodeAux f bs).map (fun cs => Char.ofNat b0 :: cs) := by
  simp only [utf8DecodeAux]
  rw [if_pos h]

theorem utf8DecodeAux_two (f b0 b1 : Nat) (bs : List Nat)
    (hb0 : 192 ≤ b0 ∧ b0 < 224) (hb1 : 128 ≤ b1 ∧ b1 < 192) :
    utf8DecodeAux (f + 1) (b0 :: b1 :: bs)
      = (utf8DecodeAux f bs).map (fun cs => Char.ofNat ((b0 - 192) * 64 + (b1 - 128)) :: cs) := by
  have hc1 : cont (b1 :: bs) = some (b1 - 128, bs) := by
    simp only [cont]
    rw [if_pos hb1]
  simp only [utf8DecodeAux]
  rw [if_neg (by omega), if_pos hb0]
  simp only [hc1, optBind_some]

theorem utf8DecodeAux_three (f b0 b1 b2 : Nat) (bs : List Nat)
    (hb0 : 224 ≤ b0 ∧ b0 < 240) (hb1 : 128 ≤ b1 ∧ b1 < 192) (hb2 : 128 ≤ b2 ∧ b2 < 192) :
    utf8DecodeAux (f + 1) (b0 :: b1 :: b2 :: bs)
      = (utf8DecodeAux f bs).map
          (fun cs => Char.ofNat ((b0 - 224) * 4096 + (b1 - 128) * 64 + (b2 - 128)) :: cs) := by
  have hc1 : cont (b1 :: b2 :: bs) = some (b1 - 128, b2 :: bs) := by
    simp only [cont]
    rw [if_pos hb1]
  have hc2 : cont (b2 :: bs) = some (b2 - 128, bs) := by
    simp only [cont]
    rw [if_pos hb2]
  simp only [utf8DecodeAux]
  rw [if_neg (by omega), if_neg (by omega), if_pos hb0]
  simp only [hc1, hc2, optBind_some]

theorem utf8DecodeAux_four (f b0 b1 b2 b3 : Nat) (bs : List Nat)
    (hb0 : 240 ≤ b0 ∧ b0 < 248) (hb1 : 128 ≤ b1 ∧ b1 < 192) (hb2 : 128 ≤ b2 ∧ b2 < 192)
    (hb3 : 128 ≤ b3 ∧ b3 < 192) :
    utf8DecodeAux (f + 1) (b0 :: b1 :: b2 :: b3 :: bs)
      = (utf8DecodeAux f bs).map
          (fun cs => Char.ofNat
            ((b0 - 240) * 262144 + (b1 - 128) * 4096 + (b2 - 128) * 64 + (b3 - 128)) :: cs) := by
  have hc1 : cont (b1 :: b2 :: b3 :: bs) = some (b1 - 128, b2 :: b3 :: bs) := by
    simp only [cont]
    rw [if_pos hb1]
  have hc2 : cont (b2 :: b3 :: bs) = some (b2 - 128, b3 :: bs) := by
    simp only [cont]
    rw [if_pos hb2]
  have hc3 : cont (b3 :: bs) = some (b3 - 128, bs) := by
    simp only [cont]
    rw [if_pos hb3]
  simp only [utf8DecodeAux]
  rw [if_neg (by omega), if_neg (by omega), if_neg (by omega), if_pos hb0]
  simp only [hc1, hc2, hc3, optBind_some]

theorem utf8DecodeAux_encode : ∀ (cs : List Char) (fuel : Nat),
    (cs.flatMap utf8EncodeChar).length ≤ fuel →
    utf8DecodeAux fuel (cs.flatMap utf8EncodeChar) = some cs := by
  intro cs
  induction cs with
  | nil =>
    intro fuel _
    cases fuel <;> rfl
  | cons c rest ih =>
    intro fuel hlen
    rw [List.flatMap_cons] at hlen ⊢
    have hv : c.toNat < 1114112 := char_toNat_lt c
    by_cases h1 : c.toNat < 128
    · have he : utf8EncodeChar c = [c.toNat] := by
        simp only [utf8EncodeChar]
        rw [if_pos h1]
      rw [he] at hlen ⊢
      rw [List.cons_append, List.nil_append] at hlen ⊢
      cases fuel with
      | zero =>
        rw [List.length_cons] at hlen
        omega
      | succ f =>
        have hrest : (rest.flatMap utf8EncodeChar).length ≤ f := by
          rw [List.length_cons] at hlen
          omega
        rw [utf8DecodeAux_one f _ _ h1, ih f hrest]
        simp [Char.ofNat_toNat]
    · by_cases h2 : c.toNat < 2048
      · have he : utf8EncodeChar c = [192 + c.toNat / 64, 128 + c.toNat % 64] := by
          simp only [utf8EncodeChar]
          rw [if_neg h1, if_pos h2]
        rw [he] at hlen ⊢
        rw [List.cons_append, List.cons_append, List.nil_append] at hlen ⊢
        cases fuel with
        | zero =>
          rw [List.length_cons] at hlen
          omega
        | succ f =>
          have hrest : (rest.flatMap utf8EncodeChar).length ≤ f := by
            rw [List.length_cons, List.length_cons] at hlen
            omega
          rw [utf8DecodeAux_two f _ _ _ (by omega) (by omega), ih f hrest]
          have hchar : Char.ofNat ((192 + c.toNat / 64 - 192) * 64 + (128 + c.toNat % 64 - 128))
              = c := by
            have hval : (192 + c.toNat / 64 - 192) * 64 + (128 + c.toNat % 64 - 128)
                = c.toNat := by
              omega
            rw [hval, Char.ofNat_toNat]
          simp only [hchar]
          rfl
      · by_cases h3 : c.toNat < 65536
        · have he : utf8EncodeChar c
              = [224 + c.toNat / 4096, 128 + c.toNat / 64 % 64, 128 + c.toNat % 64] := by
            simp only [utf8EncodeChar]
            rw [if_neg h1, if_neg h2, if_pos h3]
          rw [he] at hlen ⊢
          rw [List.cons_append, List.cons_append, List.cons_append, List.nil_append] at hlen ⊢
          cases fuel with
          | zero =>
            rw [List.length_cons] at hlen
            omega
          | succ f =>
            have hrest : (rest.flatMap utf8EncodeChar).length ≤ f := by
              rw [List.length_cons, List.length_cons, List.length_cons] at hlen
              omega
            rw [utf8DecodeAux_three f _ _ _ _ (by omega) (by omega) (by omega), ih f hrest]
            have hchar : Char.ofNat ((224 + c.toNat / 4096 - 224) * 4096
                + (128 + c.toNat / 64 % 64 - 128) * 64 + (128 + c.toNat % 64 - 128)) = c := by
              have hval : (224 + c.toNat / 4096 - 224) * 4096
                  + (128 + c.toNat / 64 % 64 - 128) * 64 + (128 + c.toNat % 64 - 128)
                  = c.toNat := by
                omega
              rw [hval, Char.ofNat_toNat]
            simp only [hchar]
            rfl
        · have he : utf8EncodeChar c
              = [240 + c.toNat / 262144, 128 + c.toNat / 4096 % 64, 128 + c.toNat / 64 % 64,
                 128 + c.toNat % 64] := by
            simp only [utf8EncodeChar]
            rw [if_neg h1, if_neg h2, if_neg h3]
          rw [he] at hlen ⊢
          rw [List.cons_append, List.cons_append, List.cons_append, List.cons_append,
            List.nil_append] at hlen ⊢
          cases fuel with
          | zero =>
            rw [List.length_cons] at hlen
            omega
          | succ f =>
            have hrest : (rest.flatMap utf8EncodeChar).length ≤ f := by
              rw [List.length_cons, List.length_cons, List.length_cons,
                List.length_cons] at hlen
              omega
            rw [utf8DecodeAux_four f _ _ _ _ _ (by omega) (by omega) (by omega) (by omega),
              ih f hrest]
            have hchar : Char.ofNat ((240 + c.toNat / 262144 - 240) * 262144
                + (128 + c.toNat / 4096 % 64 - 128) * 4096
                + (128 + c.toNat / 64 % 64 - 128) * 64 + (128 + c.toNat % 64 - 128)) = c := by
              have hval : (240 + c.toNat / 262144 - 240) * 262144
                  + (128 + c.toNat / 4096 % 64 - 128) * 4096
                  + (128 + c.toNat / 64 % 64 - 128) * 64 + (128 + c.toNat % 64 - 128)
                  = c.toNat := by
                omega
              rw [hval, Char.ofNat_toNat]
            simp only [hchar]
            rfl

theorem utf8Decode_encode (cs : List Char) :
    utf8Decode (cs.flatMap utf8EncodeChar) = some cs :=
  utf8DecodeAux_encode cs _ (Nat.le_refl _)

/-- The hex/UTF-8 round trip of `src/util/voting.tsx`:
`hexStringToStr(strToHexString(s)) = s` for every string. -/
theorem hexStringToStr_strToHexString (s : String) : hexStringToStr (strToHexString s) = s := by
  rw [hexStringToStr, strToHexString]
  have hbytes : ∀ b ∈ s.data.flatMap utf8EncodeChar, b < 256 := by
    intro b hb
    rcases List.mem_flatMap.mp hb with ⟨c, _, hbc⟩
    exact utf8EncodeChar_lt c b hbc
  have hdata : (String.mk ((s.data.flatMap utf8EncodeChar).flatMap byteToHexChars)).data
      = (s.data.flatMap utf8EncodeChar).flatMap byteToHexChars := rfl
  rw [hdata, hexToBytes_encode _ hbytes, utf8Decode_encode]

/-! ### Initial-state literal and its positional decoding -/

/-- `initialContractState(title, adminAddress, voters)` from `src/util/voting.tsx`:
the literal `[#<hex title>, 0, 0, false, false, @<admin>, [@<v1>, ...]]`. -/
def initialContractState (title adminAddress : String) (voters : List String) : String :=
  "[#" ++ strToHexString title ++ ", 0, 0, false, false, @" ++ adminAddress ++ ", ["
    ++ joinSep ", " (voters.map (fun voter => "@" ++ voter)) ++ "]]"

/-- The tuple of contract fields recovered by positional decoding. -/
structure DecodedState where
  title : String
  yes : Nat
  no : Nat
  isClosed : Bool
  initialized : Bool
  admin : String
  voters : List String
deriving DecidableEq

/-- Splits a character list at each bare `, ` separator. -/
def splitOnCS : List Char → List (List Char)
  | [] => [[]]
  | ',' :: ' ' :: rest => [] :: splitOnCS rest
  | c :: rest =>
    match splitOnCS rest with
    | [] => [[c]]
    | p :: ps => (c :: p) :: ps

/-- Strips the `@` marker from one rendered address element. -/
def stripAt : List Char → Option String
  | '@' :: v => some ⟨v⟩
  | _ => none

/-- Decoder stage 3: after `[#<hex>, 0, 0, false, false, @<admin>, [`,
expects the voter list followed by `]]`. -/
def specDecodeVoters (hex admin rest4 : List Char) : Option DecodedState :=
  if ([']', ']'] : List Char).isSuffixOf rest4 then
    let inner := rest4.dropLast.dropLast
    match (if inner = [] then some [] else (splitOnCS inner).mapM stripAt) with
    | some vs => some ⟨hexStringToStr ⟨hex⟩, 0, 0, false, false, ⟨admin⟩, vs⟩
    | none => none
  else none

/-- Decoder stage 2: after the fixed numeric and boolean fields, expects
`<admin>, [` and continues. -/
def specDecodeAdmin (hex rest2 : List Char) : Option DecodedState :=
  let admin := rest2.takeWhile (fun c => c != ',')
  let rest3 := rest2.dropWhile (fun c => c != ',')
  if (", [" : String).data.isPrefixOf rest3 then
    specDecodeVoters hex admin (rest3.drop (", [" : String).data.length)
  else none

/-- Decoder stage 1: after `[#`, expects `<hex>, 0, 0, false, false, @`
and continues. -/
def specDecodeAfterHash (rest0 : List Char) : Option DecodedState :=
  let hex := rest0.takeWhile (fun c => c != ',')
  let rest1 := rest0.dropWhile (fun c => c != ',')
  if (", 0, 0, false, false, @" : String).data.isPrefixOf rest1 then
    specDecodeAdmin hex (rest1.drop (", 0, 0, false, false, @" : String).data.length)
  else none

/-- Positional decoder for the initial-state literal format
`[#<hex title>, 0, 0, false, false, @<admin>, [@<voter1>, <...>]]` given in
the spec; intended to invert `initialContractState` (spec round trip). -/
def specDecodeStateLiteral (s : String) : Option DecodedState :=
  match s.data with
  | '[' :: '#' :: rest0 => specDecodeAfterHash rest0
  | _ => none

theorem takeWhile_append_stop (stop : Char) :
    ∀ (xs ys : List Char), (∀ c ∈ xs, c ≠ stop) →
      (xs ++ stop :: ys).takeWhile (fun c => c != stop) = xs := by
  intro xs
  induction xs with
  | nil =>
    intro ys _
    rw [List.nil_append, List.takeWhile_cons]
    simp
  | cons a xs2 ih =>
    intro ys h
    have ha : (a != stop) = true := bne_iff_ne.mpr (h a (List.mem_cons_self a xs2))
    rw [List.cons_append, List.takeWhile_cons, if_pos ha,
      ih ys (fun c hc => h c (List.mem_cons_of_mem a hc))]

theorem dropWhile_append_stop (stop : Char) :
    ∀ (xs ys : List Char), (∀ c ∈ xs, c ≠ stop) →
      (xs ++ stop :: ys).dropWhile (fun c => c != stop) = stop :: ys := by
  intro xs
  induction xs with
  | nil =>
    intro ys _
    rw [List.nil_append, List.dropWhile_cons]
    simp
  | cons a xs2 ih =>
    intro ys h
    have ha : (a != stop) = true := bne_iff_ne.mpr (h a (List.mem_cons_self a xs2))
    rw [List.cons_append, List.dropWhile_cons, if_pos ha,
      ih ys (fun c hc => h c (List.mem_cons_of_mem a hc))]

theorem stringMk_data (s : String) : (⟨s.data⟩ : String) = s := rfl

theorem mapM_stripAt : ∀ vs : List String,
    (vs.map (fun v => '@' :: v.data)).mapM stripAt = some vs := by
  intro vs
  induction vs with
  | nil => rfl
  | cons v vs2 ih =>
    rw [List.map_cons]
    rw [List.mapM_cons]
    have h1 : stripAt ('@' :: v.data) = some v := by
      rw [show stripAt ('@' :: v.data) = some ⟨v.data⟩ from rfl, stringMk_data]
    rw [h1, ih]
    rfl

theorem splitOnCS_generic (c : Char) (rest : List Char) (hc : c ≠ ',') :
    splitOnCS (c :: rest) = match splitOnCS rest with
      | [] => [[c]]
      | p :: ps => (c :: p) :: ps :=
  splitOnCS.eq_3 c rest (fun _ h _ => absurd h hc)

theorem splitOnCS_no_comma : ∀ l : List Char, ',' ∉ l → splitOnCS l = [l] := by
  intro l
  induction l with
  | nil => intro _; rfl
  | cons c rest ih =>
    intro h
    have hc : c ≠ ',' := fun he => h (by subst he; exact List.mem_cons_self _ _)
    have hr : ',' ∉ rest := fun hm => h (List.mem_cons_of_mem c hm)
    rw [splitOnCS_generic c rest hc, ih hr]

theorem splitOnCS_append_sep : ∀ (x y : List Char), ',' ∉ x →
    splitOnCS (x ++ ',' :: ' ' :: y) = x :: splitOnCS y := by
  intro x
  induction x with
  | nil =>
    intro y _
    rw [List.nil_append]
    rfl
  | cons c x2 ih =>
    intro y h
    have hc : c ≠ ',' := fun he => h (by subst he; exact List.mem_cons_self _ _)
    have hx : ',' ∉ x2 := fun hm => h (List.mem_cons_of_mem c hm)
    rw [List.cons_append, splitOnCS_generic c _ hc, ih y hx]

theorem splitOnCS_render : ∀ vs : List String, (∀ v ∈ vs, ',' ∉ v.data) →
    splitOnCS (joinSep ", " (vs.map (fun v => "@" ++ v))).data
      = (vs.map (fun v => '@' :: v.data)) ∨ vs = [] := by
  intro vs
  induction vs with
  | nil => intro _; exact Or.inr rfl
  | cons v vs2 ih =>
    intro hv
    left
    have hat : ("@" ++ v).data = '@' :: v.data := by
      simp [String.data_append]
    have hnc : ',' ∉ ('@' :: v.data) := by
      intro hm
      rcases List.mem_cons.mp hm with h1 | h2
      · exact absurd h1 (by decide)
      · exact hv v (List.mem_cons_self _ _) h2
    cases vs2 with
    | nil =>
      rw [List.map_cons, List.map_nil, joinSep_single, hat, splitOnCS_no_comma _ hnc,
        List.map_cons, List.map_nil]
    | cons w ws =>
      rw [List.map_cons,
        show List.map (fun u => "@" ++ u) (w :: ws)
          = ("@" ++ w) :: List.map (fun u => "@" ++ u) ws from rfl,
        joinSep_cons2]
      have hdata : ((("@" ++ v) ++ ", ")
            ++ joinSep ", " (("@" ++ w) :: List.map (fun u => "@" ++ u) ws)).data
          = ('@' :: v.data)
              ++ ',' :: ' ' :: (joinSep ", " (("@" ++ w)
                :: List.map (fun u => "@" ++ u) ws)).data := by
        simp [String.data_append]
      rw [hdata, splitOnCS_append_sep _ _ hnc]
      have hv2 : ∀ u ∈ w :: ws, ',' ∉ u.data := fun u hu => hv u (List.mem_cons_of_mem v hu)
      rcases ih hv2 with h | h
      · rw [show List.map (fun u => "@" ++ u) (w :: ws)
            = ("@" ++ w) :: List.map (fun u => "@" ++ u) ws from rfl] at h
        rw [h]
        rfl
      · exact absurd h (by simp)

theorem hexDigit_mem (n : Nat) (h : n < 16) :
    hexDigit n ∈ ("0123456789abcdef" : String).data := by
  interval_cases n <;> decide

theorem strToHexString_mem (t : String) :
    ∀ c ∈ (strToHexString t).data, c ∈ ("0123456789abcdef" : String).data := by
  intro c hc
  have hd : (strToHexString t).data
      = (t.data.flatMap utf8EncodeChar).flatMap byteToHexChars := rfl
  rw [hd] at hc
  rcases List.mem_flatMap.mp hc with ⟨b, hb, hcb⟩
  have hb256 : b < 256 := by
    rcases List.mem_flatMap.mp hb with ⟨ch, _, hbc⟩
    exact utf8EncodeChar_lt ch b hbc
  have hcb2 : c = hexDigit (b / 16) ∨ c = hexDigit (b % 16) := by
    simp [byteToHexChars] at hcb
    exact hcb
  rcases hcb2 with h1 | h1 <;> subst h1
  · exact hexDigit_mem _ (by omega)
  · exact hexDigit_mem _ (by omega)

theorem strToHexString_no_comma (t : String) : ∀ c ∈ (strToHexString t).data, c ≠ ',' := by
  intro c hc he
  subst he
  exact absurd (strToHexString_mem t ',' hc) (by decide)

theorem specDecode_data (s : String) (rest0 : List Char) (h : s.data = '[' :: '#' :: rest0) :
    specDecodeStateLiteral s = specDecodeAfterHash rest0 := by
  simp only [specDecodeStateLiteral, h]

theorem specDecodeAfterHash_eq (H Z2 : List Char) (hH : ∀ c ∈ H, c ≠ ',') :
    specDecodeAfterHash (H ++ ',' :: ((" 0, 0, false, false, @" : String).data ++ Z2))
      = specDecodeAdmin H Z2 := by
  simp only [specDecodeAfterHash]
  rw [takeWhile_append_stop ',' H _ hH, dropWhile_append_stop ',' H _ hH]
  simp [List.isPrefixOf]

theorem specDecodeAdmin_eq (H A W : List Char) (hA : ∀ c ∈ A, c ≠ ',') :
    specDecodeAdmin H (A ++ ',' :: (' ' :: '[' :: W)) = specDecodeVoters H A W := by
  simp only [specDecodeAdmin]
  rw [takeWhile_append_stop ',' A _ hA, dropWhile_append_stop ',' A _ hA]
  simp [List.isPrefixOf]

theorem specDecodeVoters_eq (H A I : List Char) (vs : List String)
    (hsplit : (if I = [] then some [] else (splitOnCS I).mapM stripAt) = some vs) :
    specDecodeVoters H A (I ++ [']', ']'])
      = some ⟨hexStringToStr ⟨H⟩, 0, 0, false, false, ⟨A⟩, vs⟩ := by
  simp only [specDecodeVoters]
  have hsuf : ([']', ']'] : List Char).isSuffixOf (I ++ [']', ']']) = true := by
    rw [List.isSuffixOf_iff_suffix]
    exact ⟨I, rfl⟩
  rw [hsuf, if_pos rfl]
  have hdl : (I ++ [']', ']']).dropLast.dropLast = I := by
    have h2 : I ++ [']', ']'] = (I ++ [']']) ++ [']'] := by simp
    rw [h2, List.dropLast_concat, List.dropLast_concat]
  rw [hdl, hsplit]

/-- Positional decoding inverts `initialContractState` whenever the admin
address and the voter addresses contain no comma. -/
theorem specDecode_initialContractState (title admin : String) (voters : List String)
    (hadmin : ',' ∉ admin.data) (hvoters : ∀ v ∈ voters, ',' ∉ v.data) :
    specDecodeStateLiteral (initialContractState title admin voters)
      = some ⟨title, 0, 0, false, false, admin, voters⟩ := by
  have hdata : (initialContractState title admin voters).data
      = '[' :: '#' :: ((strToHexString title).data
          ++ ',' :: ((" 0, 0, false, false, @" : String).data
            ++ (admin.data ++ ',' :: (' ' :: '[' ::
              ((joinSep ", " (voters.map (fun v => "@" ++ v))).data ++ [']', ']']))))) := by
    simp [initialContractState, String.data_append]
  have hsplit : (if (joinSep ", " (voters.map (fun v => "@" ++ v))).data = []
      then some []
      else (splitOnCS (joinSep ", " (voters.map (fun v => "@" ++ v))).data).mapM stripAt)
      = some voters := by
    cases voters with
    | nil => rfl
    | cons v vs2 =>
      rcases splitOnCS_render (v :: vs2) hvoters with h | h
      · have hne : (joinSep ", " ((v :: vs2).map (fun v => "@" ++ v))).data ≠ [] := by
          intro h0
          rw [h0] at h
          have h1 : ([[]] : List (List Char)) = ('@' :: v.data) :: (vs2.map (fun v => '@' :: v.data)) := h
          injection h1 with h2 h3
          exact absurd h2.symm (by simp)
        rw [if_neg hne, h, mapM_stripAt]
      · exact absurd h (by simp)
  rw [specDecode_data _ _ hdata,
    specDecodeAfterHash_eq _ _ (strToHexString_no_comma title),
    specDecodeAdmin_eq _ _ _ (fun c hc he => hadmin (he ▸ hc)),
    specDecodeVoters_eq _ _ _ voters hsplit,
    stringMk_data, stringMk_data, hexStringToStr_strToHexString]

/-! ### Ledger gateway and orchestration flows

`src/util/client.tsx` wraps the node REST API.  Each remote capability
either resolves with a payload or rejects; a `Gateway` records those
outcomes (compiled artifacts and signatures are opaque strings).  Each
workflow is embedded as a function returning the ordered list of remote calls
it performed (its trace) together with its final outcome, mirroring the
promise chains of `Client.deployContract` / `Client.deployScript` and the
`async` handlers of `App.tsx`: a rejection aborts the remaining steps. -/

/-- `BuildContractResult` / `BuildScriptResult`: an unsigned transaction
together with the hash to sign. -/
structure BuildResult where
  hash : String
  unsignedTx : String
deriving DecidableEq

/-- `TxResult` returned by `/transactions/submit`. -/
structure TxResult where
  txId : String
deriving DecidableEq

/-- One remote call of the client, with the arguments it was given. -/
inductive Step where
  | walletUnlock
  | getActiveAddress
  | compileContract (source : String)
  | buildContract (artifact : String) (gas : Nat) (state : String) (issueTokenAmount : String)
  | compileScript (source : String)
  | buildScript (artifact : String)
  | sign (data : String)
  | submit (unsignedTx : String) (signature : String)
  | getContractRef (txId : String)
  | getNVoters (txId : String)
  | getNetworkType
deriving DecidableEq

/-- Outcomes of the remote endpoints during one run. -/
structure Gateway where
  walletUnlock : Except String Unit
  getActiveAddress : Except String String
  compileContract : String → Except String String
  buildContract : String → Nat → String → String → Except String BuildResult
  compileScript : String → Except String String
  buildScript : String → Except String BuildResult
  sign : String → Except String String
  submit : String → String → Except String TxResult
  getContractRef : String → Except String ContractRef
  getNVoters : String → Except String Nat

/-- Modelled from the spec: `CONTRACTGAS`, the fixed gas budget constant
exported by `src/util/client.tsx`; the repository text fixes only that it is
a single constant (its numeric value is not shown), so an arbitrary fixed
value stands in for it. -/
def CONTRACTGAS : Nat := 100000

/-- `Client.deployContract(contract, gas, state, issueTokenAmount)`:
compile → build → sign → submit, each step consuming the previous step's
result; any rejection aborts the chain. -/
def Client.deployContract (gw : Gateway) (contract : String) (gas : Nat) (state : String)
    (issueTokenAmount : String) : List Step × Except String TxResult :=
  match gw.compileContract contract with
  | .error e => ([.compileContract contract], .error e)
  | .ok compileResult =>
    match gw.buildContract compileResult gas state issueTokenAmount with
    | .error e =>
      ([.compileContract contract, .buildContract compileResult gas state issueTokenAmount],
       .error e)
    | .ok buildContractResult =>
      match gw.sign buildContractResult.hash with
      | .error e =>
        ([.compileContract contract, .buildContract compileResult gas state issueTokenAmount,
          .sign buildContractResult.hash], .error e)
      | .ok signature =>
        ([.compileContract contract, .buildContract compileResult gas state issueTokenAmount,
          .sign buildContractResult.hash, .submit buildContractResult.unsignedTx signature],
         gw.submit buildContractResult.unsignedTx signature)

/-- `Client.deployScript(script)`: compile → build → sign → submit. -/
def Client.deployScript (gw : Gateway) (script : String) : List Step × Except String TxResult :=
  match gw.compileScript script with
  | .error e => ([.compileScript script], .error e)
  | .ok compileResult =>
    match gw.buildScript compileResult with
    | .error e => ([.compileScript script, .buildScript compileResult], .error e)
    | .ok buildScriptResult =>
      match gw.sign buildScriptResult.hash with
      | .error e =>
        ([.compileScript script, .buildScript compileResult, .sign buildScriptResult.hash],
         .error e)
      | .ok signature =>
        ([.compileScript script, .buildScript compileResult, .sign buildScriptResult.hash,
          .submit buildScriptResult.unsignedTx signature],
         gw.submit buildScriptResult.unsignedTx signature)

/-- The `votingSetup` record built inside `deployNewContract`. -/
structure VotingSetup where
  title : String
  voters : List String
  administrator : String

/-- `deployNewContract` from `App.tsx`: unlock the wallet, fetch the active
address, build the `votingSetup`, render contract text and initial state,
then deploy with gas `CONTRACTGAS` and `issueTokenAmount` equal to the
number of voters. -/
def deployNewContract (gw : Gateway) : List Step × Except String TxResult :=
  match gw.walletUnlock with
  | .error e => ([.walletUnlock], .error e)
  | .ok _ =>
    match gw.getActiveAddress with
    | .error e => ([.walletUnlock, .getActiveAddress], .error e)
    | .ok wallet1Address =>
      let votingSetup : VotingSetup :=
        ⟨"My first voting contract", [wallet1Address], wallet1Address⟩
      let contractStringCode := createContract votingSetup.voters.length
      let state := initialContractState votingSetup.title votingSetup.administrator
        votingSetup.voters
      let result := Client.deployContract gw contractStringCode CONTRACTGAS state
        (Nat.repr votingSetup.voters.length)
      ([.walletUnlock, .getActiveAddress] ++ result.1, result.2)

/-- `allocateTokens` handler from `App.tsx`. -/
def allocateTokens (gw : Gateway) (contractDeploymentId : String) :
    List Step × Except String TxResult :=
  match gw.walletUnlock with
  | .error e => ([.walletUnlock], .error e)
  | .ok _ =>
    match gw.getContractRef contractDeploymentId with
    | .error e => ([.walletUnlock, .getContractRef contractDeploymentId], .error e)
    | .ok contractRef =>
      match gw.getNVoters contractDeploymentId with
      | .error e =>
        ([.walletUnlock, .getContractRef contractDeploymentId,
          .getNVoters contractDeploymentId], .error e)
      | .ok nVoters =>
        let txScript := allocateTokenScript contractRef nVoters
        let result := Client.deployScript gw txScript
        ([.walletUnlock, .getContractRef contractDeploymentId,
          .getNVoters contractDeploymentId] ++ result.1, result.2)

/-- `vote` handler from `App.tsx`. -/
def vote (gw : Gateway) (contractDeploymentId : String) (choice : Bool) :
    List Step × Except String TxResult :=
  match gw.walletUnlock with
  | .error e => ([.walletUnlock], .error e)
  | .ok _ =>
    match gw.getContractRef contractDeploymentId with
    | .error e => ([.walletUnlock, .getContractRef contractDeploymentId], .error e)
    | .ok contractRef =>
      match gw.getNVoters contractDeploymentId with
      | .error e =>
        ([.walletUnlock, .getContractRef contractDeploymentId,
          .getNVoters contractDeploymentId], .error e)
      | .ok nVoters =>
        let txScript := createVotingScript choice contractRef nVoters
        let result := Client.deployScript gw txScript
        ([.walletUnlock, .getContractRef contractDeploymentId,
          .getNVoters contractDeploymentId] ++ result.1, result.2)

/-- `close` handler from `App.tsx`. -/
def close (gw : Gateway) (contractDeploymentId : String) :
    List Step × Except String TxResult :=
  match gw.walletUnlock with
  | .error e => ([.walletUnlock], .error e)
  | .ok _ =>
    match gw.getContractRef contractDeploymentId with
    | .error e => ([.walletUnlock, .getContractRef contractDeploymentId], .error e)
    | .ok contractRef =>
      match gw.getNVoters contractDeploymentId with
      | .error e =>
        ([.walletUnlock, .getContractRef contractDeploymentId,
          .getNVoters contractDeploymentId], .error e)
      | .ok nVoters =>
        let txScript := closeVotingScript contractRef nVoters
        let result := Client.deployScript gw txScript
        ([.walletUnlock, .getContractRef contractDeploymentId,
          .getNVoters contractDeploymentId] ++ result.1, result.2)

/-! ### Network status monitor and error surfacing -/

/-- `NetworkType` from `src/util/client.tsx`. -/
inductive NetworkType where
  | MAINNET
  | TESTNET
  | UNKNOWN
  | UNREACHABLE
deriving DecidableEq

/-- `pollNetworkType` from `App.tsx`: the status written on one poll —
the resolved network type, or `UNREACHABLE` when the probe rejects. -/
def pollNetworkType (result : Except String NetworkType) : NetworkType :=
  match result with
  | .ok t => t
  | .error _ => NetworkType.UNREACHABLE

/-- The poll period passed to `setInterval` in the `useEffect` of `App.tsx`. -/
def pollIntervalMs : Nat := 15000

/-- Time (ms since mount) of the k-th `pollNetworkType` call: the effect
polls once immediately, then on every interval tick. -/
def monitorPollTime : Nat → Nat
  | 0 => 0
  | k + 1 => pollIntervalMs * (k + 1)

/-- Counts network probes inside a workflow trace. -/
def isNetworkProbe : Step → Bool
  | .getNetworkType => true
  | _ => false

/-- Structured remote error detail: the `e.error` object with its
optional `detail` field. -/
structure JsErrorInner where
  detail : Option String
deriving DecidableEq

/-- A JavaScript rejection value as inspected by `catchAndAlert`: the outer
`Option` is `none` for `undefined`; `stringified` is the text `alert(e)`
would display. -/
structure JsErrorObj where
  error : Option JsErrorInner
  stringified : String
deriving DecidableEq

/-- JavaScript string coercion used by `alert(e)`. -/
def stringifyError : Option JsErrorObj → String
  | some e => e.stringified
  | none => "undefined"

/-- `catchAndAlert` from `App.tsx`, returning the list of alerts raised:
on rejection it alerts exactly once — `e.error.detail` when `e`, `e.error`
and `e.error.detail` are all defined, else the stringified error — and on
success it alerts nothing. -/
def catchAndAlert {A : Type} (action : Except (Option JsErrorObj) A) : List String :=
  match action with
  | .ok _ => []
  | .error e =>
    match e with
    | some eo =>
      match eo.error with
      | some inner =>
        match inner.detail with
        | some d => [d]
        | none => [stringifyError e]
      | none => [stringifyError e]
    | none => [stringifyError e]

/-! ### Claim theorems -/

theorem stringExt (a b : String) (h : a.data = b.data) : a = b := by
  cases a
  cases b
  cases h
  rfl

/-- `s` contains `sub` as a contiguous substring. -/
def containsSub (s sub : String) : Prop := ∃ pre post, s = pre ++ sub ++ post

theorem votersTransfers_length (n : Nat) : (votersTransfers n).length = 2 * n := by
  induction n with
  | zero => rfl
  | succ m ih =>
    rw [votersTransfers_succ, List.length_append, ih]
    simp
    omega

theorem votersTransfers_get (n i : Nat) (h : i < n) :
    (votersTransfers n)[2 * i]? = some (allocLine i)
    ∧ (votersTransfers n)[2 * i + 1]? = some (tokenLine i) := by
  induction n with
  | zero => omega
  | succ m ih =>
    rw [votersTransfers_succ]
    have hl : (votersTransfers m).length = 2 * m := votersTransfers_length m
    by_cases hi : i < m
    · have h1 : 2 * i < (votersTransfers m).length := by omega
      have h2 : 2 * i + 1 < (votersTransfers m).length := by omega
      rw [List.getElem?_append, if_pos h1, List.getElem?_append, if_pos h2]
      exact ih hi
    · have him : i = m := by omega
      subst him
      constructor
      · rw [List.getElem?_append, if_neg (by omega), hl]
        have hx : 2 * i - 2 * i = 0 := by omega
        rw [hx]
        rfl
      · rw [List.getElem?_append, if_neg (by omega), hl]
        have hx : 2 * i + 1 - 2 * i = 1 := by omega
        rw [hx]
        rfl

/-- C3: for every nVoters ≥ 1, `createContract(nVoters)` contains exactly
nVoters allocation transfer-pairs — the occurrence count of the
admin-to-voter ALPH transfer marker and of the token transfer marker are
both exactly nVoters, and the i-th pair of the generated transfer block is
`transferAlph!(admin, voters[i], 50000000000000)` directly followed by
`transferTokenFromSelf!(voters[i], selfTokenId!(), 1)` — declares
`voters: [Address; nVoters]`, keeps the vote and close routines fixed (the
constant `contractTail` closes the output for every nVoters), and is
byte-identical on every call with the same nVoters. -/
theorem createContract_transfer_pairs (nVoters : Nat) (h : 1 ≤ nVoters) :
    countOccsS allocPat (createContract nVoters) = nVoters
  ∧ countOccsS tokPat (createContract nVoters) = nVoters
  ∧ (votersTransfers nVoters).length = 2 * nVoters
  ∧ (∀ i, i < nVoters →
      (votersTransfers nVoters)[2 * i]? = some (allocLine i)
      ∧ (votersTransfers nVoters)[2 * i + 1]? = some (tokenLine i))
  ∧ (∃ pre post, createContract nVoters
      = pre ++ ("voters: [Address; " ++ Nat.repr nVoters ++ "]") ++ post)
  ∧ (∃ pre, createContract nVoters = pre ++ contractTail)
  ∧ (∀ m : Nat, m = nVoters → createContract m = createContract nVoters) := by
  refine ⟨count_allocPat_contract nVoters, count_tokPat_contract nVoters,
    votersTransfers_length nVoters, fun i hi => votersTransfers_get nVoters i hi, ?_, ?_, ?_⟩
  · refine ⟨"\n   TxContract Voting(\n     title: ByteVec,\n     mut yes: U256,\n     mut no: U256,\n     mut isClosed: Bool,\n     mut initialized: Bool,\n     admin: Address,\n     ",
      "\n   ) \x7b\n     pub payable fn allocateTokens() -> () \x7b\n        assert!(initialized == false)\n        assert!(txCaller!(txCallerSize!() - 1) == admin)\n        "
        ++ joinSep "\n" (votersTransfers nVoters) ++ contractTail, ?_⟩
    apply stringExt
    simp [createContract, contractHead, contractMid, String.data_append]
  · exact ⟨contractHead ++ Nat.repr nVoters ++ contractMid
      ++ joinSep "\n" (votersTransfers nVoters), rfl⟩
  · intro m hm
    rw [hm]

/-- Closed witness for the C3 theorem at nVoters = 2. -/
theorem createContract_transfer_pairs_witness :
    1 ≤ 2
  ∧ (countOccsS allocPat (createContract 2) = 2
    ∧ countOccsS tokPat (createContract 2) = 2
    ∧ (votersTransfers 2).length = 2 * 2
    ∧ (∀ i, i < 2 →
        (votersTransfers 2)[2 * i]? = some (allocLine i)
        ∧ (votersTransfers 2)[2 * i + 1]? = some (tokenLine i))
    ∧ (∃ pre post, createContract 2
        = pre ++ ("voters: [Address; " ++ Nat.repr 2 ++ "]") ++ post)
    ∧ (∃ pre, createContract 2 = pre ++ contractTail)
    ∧ (∀ m : Nat, m = 2 → createContract m = createContract 2)) :=
  ⟨by decide, createContract_transfer_pairs 2 (by decide)⟩

/-- C10: `createContract` is total on every integer input with no
validation of the voterCount ≥ 1 precondition: on input 0 it returns (it
does not fail) a contract declaring `voters: [Address; 0]` whose
allocation routine contains zero transfer statements (the transfer list is
empty, its joined block is the empty string, and neither transfer marker
occurs in the output); the same closed template equation returns a string
for every input. -/
theorem createContract_zero_voters :
    votersTransfers 0 = []
  ∧ joinSep "\n" (votersTransfers 0) = ""
  ∧ countOccsS allocPat (createContract 0) = 0
  ∧ countOccsS tokPat (createContract 0) = 0
  ∧ (∃ pre post, createContract 0 = pre ++ "voters: [Address; 0]" ++ post)
  ∧ (∀ n : Nat, createContract n
      = contractHead ++ Nat.repr n ++ contractMid
        ++ joinSep "\n" (votersTransfers n) ++ contractTail) := by
  refine ⟨rfl, rfl, ?_, ?_, ?_, fun n => rfl⟩
  · have h := count_allocPat_contract 0
    simpa using h
  · have h := count_tokPat_contract 0
    simpa using h
  · refine ⟨"\n   TxContract Voting(\n     title: ByteVec,\n     mut yes: U256,\n     mut no: U256,\n     mut isClosed: Bool,\n     mut initialized: Bool,\n     admin: Address,\n     ", contractMidA ++ " " ++ contractTail, ?_⟩
    decide

/-- C5: for every choice, contract reference and voter count, the rendered
voting script approves exactly one token of id `ref.tokenId`, approves the
fixed per-vote fee, loads the contract by `ref.tokenId` and calls
`voting.vote(<choice>, caller)`; in particular for
`ref = {contractAddress: "X", tokenId: "T"}`, `nVoters = 1`, `choice = true`
the script contains exactly one `approveToken!(caller, #T, 1)`, one fee
approval and one `voting.vote(true, caller)` call. -/
theorem createVotingScript_contents (choice : Bool) (ref : ContractRef) (nVoters : Nat) :
    containsSub (createVotingScript choice ref nVoters)
        ("approveToken!(caller, #" ++ ref.tokenId ++ ", 1)")
  ∧ containsSub (createVotingScript choice ref nVoters) "approveAlph!(caller, 50000000000000)"
  ∧ containsSub (createVotingScript choice ref nVoters)
        ("voting.vote(" ++ toString choice ++ ", caller)")
  ∧ containsSub (createVotingScript choice ref nVoters)
        ("let voting = Voting(#" ++ ref.tokenId ++ ")")
  ∧ countOccsS "approveToken!(caller, #T, 1)" (createVotingScript true ⟨"X", "T"⟩ 1) = 1
  ∧ countOccsS "approveAlph!(caller, 50000000000000)" (createVotingScript true ⟨"X", "T"⟩ 1) = 1
  ∧ countOccsS "voting.vote(true, caller)" (createVotingScript true ⟨"X", "T"⟩ 1) = 1 := by
  refine ⟨?_, ?_, ?_, ?_, by decide, by decide, by decide⟩
  · refine ⟨"TxScript VotingScript \x7b\n      pub payable fn main() -> () \x7b\n        let caller = txCaller!(0)\n        let voting = Voting(#"
        ++ ref.tokenId ++ ")\n        ",
      "\n        approveAlph!(caller, " ++ utxoFee ++ ")\n        voting.vote("
        ++ toString choice ++ ", caller)\n      \x7d\n    \x7d\n    "
        ++ createContract nVoters ++ "\n    ", ?_⟩
    apply stringExt
    simp [createVotingScript, utxoFee, String.data_append]
  · refine ⟨"TxScript VotingScript \x7b\n      pub payable fn main() -> () \x7b\n        let caller = txCaller!(0)\n        let voting = Voting(#"
        ++ ref.tokenId ++ ")\n        approveToken!(caller, #" ++ ref.tokenId ++ ", 1)\n        ",
      "\n        voting.vote(" ++ toString choice ++ ", caller)\n      \x7d\n    \x7d\n    "
        ++ createContract nVoters ++ "\n    ", ?_⟩
    apply stringExt
    simp [createVotingScript, utxoFee, String.data_append]
  · refine ⟨"TxScript VotingScript \x7b\n      pub payable fn main() -> () \x7b\n        let caller = txCaller!(0)\n        let voting = Voting(#"
        ++ ref.tokenId ++ ")\n        approveToken!(caller, #" ++ ref.tokenId
        ++ ", 1)\n        approveAlph!(caller, " ++ utxoFee ++ ")\n        ",
      "\n      \x7d\n    \x7d\n    " ++ createContract nVoters ++ "\n    ", ?_⟩
    apply stringExt
    simp [createVotingScript, utxoFee, String.data_append]
  · refine ⟨"TxScript VotingScript \x7b\n      pub payable fn main() -> () \x7b\n        let caller = txCaller!(0)\n        ",
      "\n        approveToken!(caller, #" ++ ref.tokenId ++ ", 1)\n        approveAlph!(caller, "
        ++ utxoFee ++ ")\n        voting.vote(" ++ toString choice
        ++ ", caller)\n      \x7d\n    \x7d\n    " ++ createContract nVoters ++ "\n    ", ?_⟩
    apply stringExt
    simp [createVotingScript, utxoFee, String.data_append]

/-- Proof-side segment: the close script before its `#` marker. -/
def closeLit1A : String :=
  "TxScript ClosingScript \x7b\n    pub payable fn main() -> () \x7b\n      let voting = Voting("

/-- Proof-side segment: the close script between the token id and its final
space before the inlined contract. -/
def closeLit2A : String := "\n      voting.close()\n    \x7d\n  \x7d\n "

/-- C6: every occurrence of the per-voter UTXO-creation fee in rendered
output is the single module constant `utxoFee = 50000000000000`: each
allocation transfer line carries it, the generated vote routine transfers
it back to the admin, the allocate script approves `utxoFee * nVoters`,
the vote script approves `utxoFee` once, and the close script contains no
ALPH approval at all (zero occurrences of `approveAlph!`, for every
hex-encoded token id and every voter count). -/
theorem utxoFee_consistency (ref : ContractRef) (nVoters i : Nat) (choice : Bool)
    (hhex : ∀ c ∈ ref.tokenId.data, c ∈ ("0123456789abcdef" : String).data) :
    utxoFee = "50000000000000"
  ∧ allocLine i = "transferAlph!(admin, voters[" ++ Nat.repr i ++ "], " ++ utxoFee ++ ")"
  ∧ containsSub (createContract nVoters) ("transferAlph!(voter, admin, " ++ utxoFee ++ ")")
  ∧ containsSub (allocateTokenScript ref nVoters)
      ("approveAlph!(caller, " ++ utxoFee ++ " * " ++ Nat.repr nVoters ++ ")")
  ∧ containsSub (createVotingScript choice ref nVoters)
      ("approveAlph!(caller, " ++ utxoFee ++ ")")
  ∧ countOccsS appPat (closeVotingScript ref nVoters) = 0 := by
  refine ⟨rfl, rfl, ?_, ?_, ?_, ?_⟩
  · refine ⟨contractHead ++ Nat.repr nVoters ++ contractMid
        ++ joinSep "\n" (votersTransfers nVoters)
        ++ "\n        yes = 0\n        no = 0\n        initialized = true\n     \x7d\n\n     pub payable fn vote(choice: Bool, voter: Address) -> () \x7b\n       assert!(initialized == true && isClosed == false)\n       ",
      "\n       transferTokenToSelf!(voter, selfTokenId!(), 1)\n       if (choice == true) \x7b\n          yes = yes + 1\n       \x7d else \x7b\n          no = no + 1\n       \x7d\n     \x7d\n\n      pub fn close() -> () \x7b\n        assert!(initialized == true && isClosed == false)\n        assert!(txCaller!(txCallerSize!() - 1) == admin)\n        isClosed = true\n      \x7d\n    \x7d", ?_⟩
    apply stringExt
    simp [createContract, contractTail, utxoFee, String.data_append]
  · refine ⟨"TxScript TokenAllocation \x7b\n    pub payable fn main() -> () \x7b\n      let voting = Voting(#"
        ++ ref.tokenId ++ ")\n      let caller = txCaller!(0)\n      ",
      "\n      voting.allocateTokens()\n    \x7d\n  \x7d\n  "
        ++ createContract nVoters ++ "\n  ", ?_⟩
    apply stringExt
    simp [allocateTokenScript, utxoFee, String.data_append]
  · refine ⟨"TxScript VotingScript \x7b\n      pub payable fn main() -> () \x7b\n        let caller = txCaller!(0)\n        let voting = Voting(#"
        ++ ref.tokenId ++ ")\n        approveToken!(caller, #" ++ ref.tokenId ++ ", 1)\n        ",
      "\n        voting.vote(" ++ toString choice ++ ", caller)\n      \x7d\n    \x7d\n    "
        ++ createContract nVoters ++ "\n    ", ?_⟩
    apply stringExt
    simp [createVotingScript, utxoFee, String.data_append]
  · have hdata : (closeVotingScript ref nVoters).data
        = closeLit1A.data ++ '#' :: (ref.tokenId.data
            ++ ')' :: (closeLit2A.data
              ++ ' ' :: ((createContract nVoters).data ++ '\n' :: ([' ', ' '] : List Char)))) := by
      simp [closeVotingScript, closeLit1A, closeLit2A, String.data_append]
    have hne : appPat.data ≠ [] := by decide
    have h1 : countOccs appPat.data closeLit1A.data = 0 := by decide
    have h2 : countOccs appPat.data closeLit2A.data = 0 := by decide
    have h3 : countOccs appPat.data ([' ', ' '] : List Char) = 0 := by decide
    have h4 : countOccs appPat.data ref.tokenId.data = 0 :=
      countOccs_eq_zero appPat.data 'p' (by decide) _
        (fun hp => absurd (hhex 'p' hp) (by decide))
    have h5 : countOccs appPat.data (createContract nVoters).data = 0 :=
      count_appPat_contract nVoters
    rw [countOccsS, hdata, countOccs_split appPat.data '#' hne (by decide),
      countOccs_split appPat.data ')' hne (by decide),
      countOccs_split appPat.data ' ' hne (by decide),
      countOccs_split appPat.data '\n' hne (by decide),
      h1, h2, h3, h4, h5]

/-- Closed witness for the C6 theorem at a concrete hex token id. -/
theorem utxoFee_consistency_witness :
    (∀ c ∈ (("0a1b2c" : String)).data, c ∈ ("0123456789abcdef" : String).data)
  ∧ (utxoFee = "50000000000000"
    ∧ allocLine 0 = "transferAlph!(admin, voters[" ++ Nat.repr 0 ++ "], " ++ utxoFee ++ ")"
    ∧ containsSub (createContract 1) ("transferAlph!(voter, admin, " ++ utxoFee ++ ")")
    ∧ containsSub (allocateTokenScript ⟨"X", "0a1b2c"⟩ 1)
        ("approveAlph!(caller, " ++ utxoFee ++ " * " ++ Nat.repr 1 ++ ")")
    ∧ containsSub (createVotingScript true ⟨"X", "0a1b2c"⟩ 1)
        ("approveAlph!(caller, " ++ utxoFee ++ ")")
    ∧ countOccsS appPat (closeVotingScript ⟨"X", "0a1b2c"⟩ 1) = 0) :=
  ⟨by decide, utxoFee_consistency ⟨"X", "0a1b2c"⟩ 1 0 true (by decide)⟩

/-- C7: each of the three rendered scripts carries the complete
`createContract(nVoters)` output inlined after its `TxScript` definition
(followed only by the template's trailing whitespace) and its script part
references the contract instance by `ref.tokenId` via `Voting(#<tokenId>)`. -/
theorem scripts_inline_contract (ref : ContractRef) (nVoters : Nat) (choice : Bool) :
    (∃ scriptPart, allocateTokenScript ref nVoters
        = scriptPart ++ createContract nVoters ++ "\n  "
      ∧ containsSub scriptPart ("Voting(#" ++ ref.tokenId ++ ")"))
  ∧ (∃ scriptPart, createVotingScript choice ref nVoters
        = scriptPart ++ createContract nVoters ++ "\n    "
      ∧ containsSub scriptPart ("Voting(#" ++ ref.tokenId ++ ")"))
  ∧ (∃ scriptPart, closeVotingScript ref nVoters
        = scriptPart ++ createContract nVoters ++ "\n  "
      ∧ containsSub scriptPart ("Voting(#" ++ ref.tokenId ++ ")")) := by
  refine ⟨⟨"TxScript TokenAllocation \x7b\n    pub payable fn main() -> () \x7b\n      let voting = Voting(#"
      ++ ref.tokenId ++ ")\n      let caller = txCaller!(0)\n      approveAlph!(caller, "
      ++ utxoFee ++ " * " ++ Nat.repr nVoters ++ ")\n      voting.allocateTokens()\n    \x7d\n  \x7d\n  ",
    ?_, ?_⟩, ⟨"TxScript VotingScript \x7b\n      pub payable fn main() -> () \x7b\n        let caller = txCaller!(0)\n        let voting = Voting(#"
      ++ ref.tokenId ++ ")\n        approveToken!(caller, #" ++ ref.tokenId
      ++ ", 1)\n        approveAlph!(caller, " ++ utxoFee ++ ")\n        voting.vote("
      ++ toString choice ++ ", caller)\n      \x7d\n    \x7d\n    ", ?_, ?_⟩,
    ⟨"TxScript ClosingScript \x7b\n    pub payable fn main() -> () \x7b\n      let voting = Voting(#"
      ++ ref.tokenId ++ ")\n      voting.close()\n    \x7d\n  \x7d\n  ", ?_, ?_⟩⟩
  · apply stringExt
    simp [allocateTokenScript, String.data_append]
  · refine ⟨"TxScript TokenAllocation \x7b\n    pub payable fn main() -> () \x7b\n      let voting = ",
      "\n      let caller = txCaller!(0)\n      approveAlph!(caller, " ++ utxoFee ++ " * "
        ++ Nat.repr nVoters ++ ")\n      voting.allocateTokens()\n    \x7d\n  \x7d\n  ", ?_⟩
    apply stringExt
    simp [String.data_append]
  · apply stringExt
    simp [createVotingScript, String.data_append]
  · refine ⟨"TxScript VotingScript \x7b\n      pub payable fn main() -> () \x7b\n        let caller = txCaller!(0)\n        let voting = ",
      "\n        approveToken!(caller, #" ++ ref.tokenId ++ ", 1)\n        approveAlph!(caller, "
        ++ utxoFee ++ ")\n        voting.vote(" ++ toString choice
        ++ ", caller)\n      \x7d\n    \x7d\n    ", ?_⟩
    apply stringExt
    simp [String.data_append]
  · apply stringExt
    simp [closeVotingScript, String.data_append]
  · refine ⟨"TxScript ClosingScript \x7b\n    pub payable fn main() -> () \x7b\n      let voting = ",
      "\n      voting.close()\n    \x7d\n  \x7d\n  ", ?_⟩
    apply stringExt
    simp [String.data_append]

/-- C4: `initialContractState(title, admin, voters)` returns exactly the
literal `[#H, 0, 0, false, false, @admin, [@v1, ..., @vn]]` with
`H = strToHexString(title)` the lowercase hex of the UTF-8 bytes of the
title and the voters in input order; positional decoding (with
`hexStringToStr` applied to the first field) recovers
`(title, 0, 0, false, false, admin, voters)`, and
`hexStringToStr(strToHexString(s)) = s` for every string `s`. -/
theorem initialContractState_roundtrip (title admin : String) (voters : List String)
    (hadmin : ',' ∉ admin.data) (hvoters : ∀ v ∈ voters, ',' ∉ v.data) :
    initialContractState title admin voters
      = "[#" ++ strToHexString title ++ ", 0, 0, false, false, @" ++ admin ++ ", ["
        ++ joinSep ", " (voters.map (fun v => "@" ++ v)) ++ "]]"
  ∧ specDecodeStateLiteral (initialContractState title admin voters)
      = some ⟨title, 0, 0, false, false, admin, voters⟩
  ∧ (∀ s : String, hexStringToStr (strToHexString s) = s) :=
  ⟨rfl, specDecode_initialContractState title admin voters hadmin hvoters,
   hexStringToStr_strToHexString⟩

/-- Closed witness for the C4 theorem at concrete inputs. -/
theorem initialContractState_roundtrip_witness :
    (',' ∉ ("adminAddr1" : String).data
      ∧ (∀ v ∈ (["voterA", "voterB"] : List String), ',' ∉ v.data))
  ∧ (initialContractState "My first voting contract" "adminAddr1" ["voterA", "voterB"]
      = "[#" ++ strToHexString "My first voting contract" ++ ", 0, 0, false, false, @"
        ++ "adminAddr1" ++ ", ["
        ++ joinSep ", " ((["voterA", "voterB"] : List String).map (fun v => "@" ++ v)) ++ "]]"
    ∧ specDecodeStateLiteral (initialContractState "My first voting contract" "adminAddr1"
        ["voterA", "voterB"])
      = some ⟨"My first voting contract", 0, 0, false, false, "adminAddr1",
          ["voterA", "voterB"]⟩
    ∧ (∀ s : String, hexStringToStr (strToHexString s) = s)) :=
  ⟨⟨by decide, by decide⟩,
   initialContractState_roundtrip "My first voting contract" "adminAddr1"
     ["voterA", "voterB"] (by decide) (by decide)⟩

/-- C8: on any rejection, the UI alerts exactly once: the structured
`e.error.detail` when `e`, `e.error` and `e.error.detail` are all defined,
else the stringified error itself; on success nothing is alerted, so no
partial-success state is ever surfaced. -/
theorem catchAndAlert_error_surface :
    (∀ (A : Type) (x : A), catchAndAlert (Except.ok x) = ([] : List String))
  ∧ (∀ (s d : String), @catchAndAlert Unit (Except.error (some ⟨some ⟨some d⟩, s⟩)) = [d])
  ∧ (∀ s : String, @catchAndAlert Unit (Except.error (some ⟨some ⟨none⟩, s⟩)) = [s])
  ∧ (∀ s : String, @catchAndAlert Unit (Except.error (some ⟨none, s⟩)) = [s])
  ∧ @catchAndAlert Unit (Except.error none) = ["undefined"]
  ∧ (∀ e : Option JsErrorObj, (@catchAndAlert Unit (Except.error e)).length = 1) := by
  refine ⟨fun A x => rfl, fun s d => rfl, fun s => rfl, fun s => rfl, rfl, ?_⟩
  intro e
  rcases e with _ | ⟨err, str⟩
  · rfl
  · rcases err with _ | ⟨det⟩
    · rfl
    · rcases det with _ | d <;> rfl

/-- C9: the network monitor polls once immediately (poll 0 at time 0) and
then on a fixed 15-second interval (each later poll exactly
`pollIntervalMs = 15000` after the previous one); every successful poll
stores the returned `NetworkType` and every rejection stores
`UNREACHABLE`; and no transactional flow ever performs a network probe
(its trace contains no `getNetworkType` call). -/
theorem network_monitor_poll :
    pollIntervalMs = 15000
  ∧ monitorPollTime 0 = 0
  ∧ (∀ k, monitorPollTime (k + 1) = monitorPollTime k + pollIntervalMs)
  ∧ (∀ t, pollNetworkType (Except.ok t) = t)
  ∧ (∀ e, pollNetworkType (Except.error e) = NetworkType.UNREACHABLE)
  ∧ (∀ gw, ((deployNewContract gw).1.filter isNetworkProbe).length = 0)
  ∧ (∀ gw c g s a, ((Client.deployContract gw c g s a).1.filter isNetworkProbe).length = 0)
  ∧ (∀ gw sc, ((Client.deployScript gw sc).1.filter isNetworkProbe).length = 0)
  ∧ (∀ gw id, ((allocateTokens gw id).1.filter isNetworkProbe).length = 0)
  ∧ (∀ gw id ch, ((vote gw id ch).1.filter isNetworkProbe).length = 0)
  ∧ (∀ gw id, ((close gw id).1.filter isNetworkProbe).length = 0) := by
  refine ⟨rfl, rfl, ?_, fun t => rfl, fun e => rfl, ?_, ?_, ?_, ?_, ?_, ?_⟩
  · intro k
    cases k with
    | zero => rfl
    | succ m =>
      simp [monitorPollTime, pollIntervalMs]
      ring
  · intro gw
    unfold deployNewContract Client.deployContract
    repeat' split
    all_goals try dsimp only
    repeat' split
    all_goals rfl
  · intro gw c g s a
    unfold Client.deployContract
    repeat' split
    all_goals rfl
  · intro gw sc
    unfold Client.deployScript
    repeat' split
    all_goals rfl
  · intro gw id
    unfold allocateTokens Client.deployScript
    repeat' split
    all_goals try dsimp only
    repeat' split
    all_goals rfl
  · intro gw id ch
    unfold vote Client.deployScript
    repeat' split
    all_goals try dsimp only
    repeat' split
    all_goals rfl
  · intro gw id
    unfold close Client.deployScript
    repeat' split
    all_goals try dsimp only
    repeat' split
    all_goals rfl

/-- C2: in both `Client.deployContract` and `Client.deployScript`, the run
is exactly one of four cases: compile rejects (trace stops at the compile
call), compile succeeds and build rejects (trace stops at build), sign
rejects (trace stops at sign), or all three succeed and submit runs last —
so compile always precedes build, build precedes sign, sign precedes
submit, each step consumes the previous step’s output (the compiled
artifact feeds build, the build hash feeds sign, the unsigned transaction
and signature feed submit), and no submit call occurs when compile, build
or sign fails. -/
theorem client_workflow_sequencing (gw : Gateway) (contract : String) (gas : Nat)
    (state amount script : String) :
    ((∃ e, gw.compileContract contract = Except.error e
        ∧ Client.deployContract gw contract gas state amount
            = ([Step.compileContract contract], Except.error e))
      ∨ (∃ art e, gw.compileContract contract = Except.ok art
        ∧ gw.buildContract art gas state amount = Except.error e
        ∧ Client.deployContract gw contract gas state amount
            = ([Step.compileContract contract, Step.buildContract art gas state amount],
               Except.error e))
      ∨ (∃ art b e, gw.compileContract contract = Except.ok art
        ∧ gw.buildContract art gas state amount = Except.ok b
        ∧ gw.sign b.hash = Except.error e
        ∧ Client.deployContract gw contract gas state amount
            = ([Step.compileContract contract, Step.buildContract art gas state amount,
                Step.sign b.hash], Except.error e))
      ∨ (∃ art b sig, gw.compileContract contract = Except.ok art
        ∧ gw.buildContract art gas state amount = Except.ok b
        ∧ gw.sign b.hash = Except.ok sig
        ∧ Client.deployContract gw contract gas state amount
            = ([Step.compileContract contract, Step.buildContract art gas state amount,
                Step.sign b.hash, Step.submit b.unsignedTx sig],
               gw.submit b.unsignedTx sig)))
  ∧ ((∃ e, gw.compileScript script = Except.error e
        ∧ Client.deployScript gw script = ([Step.compileScript script], Except.error e))
      ∨ (∃ art e, gw.compileScript script = Except.ok art
        ∧ gw.buildScript art = Except.error e
        ∧ Client.deployScript gw script
            = ([Step.compileScript script, Step.buildScript art], Except.error e))
      ∨ (∃ art b e, gw.compileScript script = Except.ok art
        ∧ gw.buildScript art = Except.ok b
        ∧ gw.sign b.hash = Except.error e
        ∧ Client.deployScript gw script
            = ([Step.compileScript script, Step.buildScript art, Step.sign b.hash],
               Except.error e))
      ∨ (∃ art b sig, gw.compileScript script = Except.ok art
        ∧ gw.buildScript art = Except.ok b
        ∧ gw.sign b.hash = Except.ok sig
        ∧ Client.deployScript gw script
            = ([Step.compileScript script, Step.buildScript art, Step.sign b.hash,
                Step.submit b.unsignedTx sig],
               gw.submit b.unsignedTx sig))) := by
  constructor
  · cases h1 : gw.compileContract contract with
    | error e => exact Or.inl ⟨e, rfl, by simp [Client.deployContract, h1]⟩
    | ok art =>
      cases h2 : gw.buildContract art gas state amount with
      | error e =>
        exact Or.inr (Or.inl ⟨art, e, rfl, h2, by simp [Client.deployContract, h1, h2]⟩)
      | ok b =>
        cases h3 : gw.sign b.hash with
        | error e =>
          exact Or.inr (Or.inr (Or.inl ⟨art, b, e, rfl, h2, h3,
            by simp [Client.deployContract, h1, h2, h3]⟩))
        | ok sig =>
          exact Or.inr (Or.inr (Or.inr ⟨art, b, sig, rfl, h2, h3,
            by simp [Client.deployContract, h1, h2, h3]⟩))
  · cases h1 : gw.compileScript script with
    | error e => exact Or.inl ⟨e, rfl, by simp [Client.deployScript, h1]⟩
    | ok art =>
      cases h2 : gw.buildScript art with
      | error e => exact Or.inr (Or.inl ⟨art, e, rfl, h2, by simp [Client.deployScript, h1, h2]⟩)
      | ok b =>
        cases h3 : gw.sign b.hash with
        | error e =>
          exact Or.inr (Or.inr (Or.inl ⟨art, b, e, rfl, h2, h3,
            by simp [Client.deployScript, h1, h2, h3]⟩))
        | ok sig =>
          exact Or.inr (Or.inr (Or.inr ⟨art, b, sig, rfl, h2, h3,
            by simp [Client.deployScript, h1, h2, h3]⟩))

/-- C1: whenever the deploy-contract flow succeeds, its remote calls are
exactly, in order: unlock the administrator wallet, fetch the active
address, compile `createContract(voters.length)` for
`voters = [activeAddress]`, build the unsigned transaction from the compiled
artifact with the fixed gas constant `CONTRACTGAS`, the rendered initial
state and issued-token-amount `"1"` (exactly one token for the single
voter), sign the build hash, and submit the unsigned transaction with that
signature — each step consuming the previous step's output — and the flow's
result is exactly the `TxResult` of submit. -/
theorem deployNewContract_step_order (gw : Gateway) (r : TxResult)
    (hok : (deployNewContract gw).2 = Except.ok r) :
    ∃ addr artifact build sig,
      gw.walletUnlock = Except.ok ()
      ∧ gw.getActiveAddress = Except.ok addr
      ∧ gw.compileContract (createContract 1) = Except.ok artifact
      ∧ gw.buildContract artifact CONTRACTGAS
          (initialContractState "My first voting contract" addr [addr]) "1"
          = Except.ok build
      ∧ gw.sign build.hash = Except.ok sig
      ∧ gw.submit build.unsignedTx sig = Except.ok r
      ∧ (deployNewContract gw).1
          = [Step.walletUnlock, Step.getActiveAddress,
             Step.compileContract (createContract 1),
             Step.buildContract artifact CONTRACTGAS
               (initialContractState "My first voting contract" addr [addr]) "1",
             Step.sign build.hash, Step.submit build.unsignedTx sig] := by
  have hrepr : Nat.repr 1 = "1" := by decide
  cases h1 : gw.walletUnlock with
  | error e =>
    rw [show (deployNewContract gw).2 = Except.error e from by
      simp [deployNewContract, h1]] at hok
    exact absurd hok (by simp)
  | ok u =>
    cases h2 : gw.getActiveAddress with
    | error e =>
      rw [show (deployNewContract gw).2 = Except.error e from by
        simp [deployNewContract, h1, h2]] at hok
      exact absurd hok (by simp)
    | ok addr =>
      cases h3 : gw.compileContract (createContract 1) with
      | error e =>
        rw [show (deployNewContract gw).2 = Except.error e from by
          simp [deployNewContract, Client.deployContract, h1, h2, h3]] at hok
        exact absurd hok (by simp)
      | ok artifact =>
        cases h4 : gw.buildContract artifact CONTRACTGAS
            (initialContractState "My first voting contract" addr [addr]) "1" with
        | error e =>
          rw [show (deployNewContract gw).2 = Except.error e from by
            simp [deployNewContract, Client.deployContract, h1, h2, h3, hrepr, h4]] at hok
          exact absurd hok (by simp)
        | ok build =>
          cases h5 : gw.sign build.hash with
          | error e =>
            rw [show (deployNewContract gw).2 = Except.error e from by
              simp [deployNewContract, Client.deployContract, h1, h2, h3, hrepr, h4, h5]] at hok
            exact absurd hok (by simp)
          | ok sig =>
            have hres : (deployNewContract gw).2 = gw.submit build.unsignedTx sig := by
              simp [deployNewContract, Client.deployContract, h1, h2, h3, hrepr, h4, h5]
            have htrace : (deployNewContract gw).1
                = [Step.walletUnlock, Step.getActiveAddress,
                   Step.compileContract (createContract 1),
                   Step.buildContract artifact CONTRACTGAS
                     (initialContractState "My first voting contract" addr [addr]) "1",
                   Step.sign build.hash, Step.submit build.unsignedTx sig] := by
              simp [deployNewContract, Client.deployContract, h1, h2, h3, hrepr, h4, h5]
            rw [hres] at hok
            exact ⟨addr, artifact, build, sig, rfl, rfl, rfl, h4, h5, hok, htrace⟩

/-- An all-successful gateway used to witness the deploy-contract flow. -/
def sampleGateway : Gateway :=
  ⟨Except.ok (), Except.ok "sampleAddressOne",
   fun src => Except.ok ("compiled:" ++ src),
   fun artifact _ _ _ => Except.ok ⟨"buildhash:" ++ artifact, "unsignedtx:" ++ artifact⟩,
   fun src => Except.ok ("compiledscript:" ++ src),
   fun artifact => Except.ok ⟨"scripthash:" ++ artifact, "scriptunsigned:" ++ artifact⟩,
   fun d => Except.ok ("sig:" ++ d),
   fun _ _ => Except.ok ⟨"txid-1"⟩,
   fun _ => Except.ok ⟨"contractAddr", "ab01"⟩,
   fun _ => Except.ok 1⟩

/-- Closed witness for the C1 theorem at the all-successful gateway. -/
theorem deployNewContract_step_order_witness :
    (deployNewContract sampleGateway).2 = Except.ok ⟨"txid-1"⟩
  ∧ (∃ addr artifact build sig,
      sampleGateway.walletUnlock = Except.ok ()
      ∧ sampleGateway.getActiveAddress = Except.ok addr
      ∧ sampleGateway.compileContract (createContract 1) = Except.ok artifact
      ∧ sampleGateway.buildContract artifact CONTRACTGAS
          (initialContractState "My first voting contract" addr [addr]) "1"
          = Except.ok build
      ∧ sampleGateway.sign build.hash = Except.ok sig
      ∧ sampleGateway.submit build.unsignedTx sig = Except.ok ⟨"txid-1"⟩
      ∧ (deployNewContract sampleGateway).1
          = [Step.walletUnlock, Step.getActiveAddress,
             Step.compileContract (createContract 1),
             Step.buildContract artifact CONTRACTGAS
               (initialContractState "My first voting contract" addr [addr]) "1",
             Step.sign build.hash, Step.submit build.unsignedTx sig]) :=
  ⟨rfl, deployNewContract_step_order sampleGateway ⟨"txid-1"⟩ rfl⟩

end VotingTutorial